import Mathlib

/-!
Shallow embedding of the audio synthesis pipeline of
`tools/generate_flashcard_audio.py` (Spanish_flashcards repository).

Python strings are modelled as `List Char`, byte buffers as `List Nat`
(one entry per byte), and the filesystem as an association list from
path to file bytes.  Network providers are modelled as oracle functions
supplied as arguments: the Gemini endpoint as a function from attempt
index to an HTTP-level response, the Google Cloud TTS client as a
function from text to either audio bytes or an exception.  Blocking
`time.sleep` calls are modelled as an explicit list of slept durations,
and provider invocations as an explicit list of network events.

The base64 transport of the primary provider's payload is elided:
`inlineData.data` is modelled as the decoded byte list (decode failures
are outside every claim under consideration).  Python `int()` is
modelled on decimal literals with optional sign and surrounding
whitespace (underscore digit grouping is not modelled).
-/

/-- Filesystem: association list from path to file contents (bytes). -/
def FS : Type := List (String × List Nat)

instance : DecidableEq FS := by
  unfold FS
  infer_instance

/-- `open(path, 'wb')` followed by a single full write: the path now maps
to exactly `v`; any previous entry for the path is dropped. -/
def writeFile (fs : FS) (p : String) (v : List Nat) : FS :=
  (p, v) :: fs.filter (fun e => decide (e.1 ≠ p))

/-- `os.remove(path)` (restricted to assoc-list removal). -/
def eraseFile (fs : FS) (p : String) : FS :=
  fs.filter (fun e => decide (e.1 ≠ p))

/-- `os.path.exists(path)`. -/
def fileExists (fs : FS) (p : String) : Bool :=
  fs.any (fun e => decide (e.1 = p))

/-- Little-endian 16-bit field, as written by the `wave` module. -/
def u16le (n : Nat) : List Nat :=
  [n % 256, n / 256 % 256]

/-- Little-endian 32-bit field, as written by the `wave` module. -/
def u32le (n : Nat) : List Nat :=
  [n % 256, n / 256 % 256, n / 65536 % 256, n / 16777216 % 256]

/-- The exact bytes the `wave` module produces for a mono/linear PCM
write: RIFF chunk, fmt chunk (PCM format tag 1, channel count, sample
rate, byte rate, block align, bits per sample), then the data chunk
with the payload unmodified.  Header length is 44 bytes. -/
def wavBytes (num_channels sample_width : Nat) (sample_rate : Int) (pcm : List Nat) : List Nat :=
  [82, 73, 70, 70] ++ u32le (36 + pcm.length) ++
  [87, 65, 86, 69] ++
  [102, 109, 116, 32] ++ u32le 16 ++ u16le 1 ++ u16le num_channels ++
  u32le sample_rate.toNat ++
  u32le (sample_rate.toNat * num_channels * sample_width) ++
  u16le (num_channels * sample_width) ++ u16le (sample_width * 8) ++
  [100, 97, 116, 97] ++ u32le pcm.length ++ pcm

/-- `pcm_to_wav` (source lines 42-69): builds the WAV bytes by writing
them to the fixed temp file `temp_audio.wav` via the `wave` module,
reading the file back, and removing it.  Returns the filesystem after
the round-trip together with the WAV bytes. -/
def pcm_to_wav (fs : FS) (pcm_data : List Nat) (sample_rate : Int)
    (num_channels sample_width : Nat) : FS × List Nat :=
  let wav := wavBytes num_channels sample_width sample_rate pcm_data
  let fs1 := writeFile fs "temp_audio.wav" wav
  let fs2 := eraseFile fs1 "temp_audio.wav"
  (fs2, wav)

/-- `generate_silence_pcm` (source lines 72-87):
`int(sample_rate * duration_ms / 1000)` samples of zero bytes
(`Int.tdiv` models `int()` truncation toward zero; a negative sample
count yields the empty buffer, as `b'\x00' * n` does for negative `n`). -/
def generate_silence_pcm (duration_ms : Nat) (sample_rate : Int)
    (num_channels sample_width : Nat) : List Nat :=
  let num_samples := Int.tdiv (sample_rate * (duration_ms : Int)) 1000
  List.replicate (num_samples.toNat * num_channels * sample_width) 0

/-- `trim_audio_beginning` (source lines 90-112): drop
`min(int(sample_rate * trim_ms / 1000) * num_channels * sample_width, len(pcm_data))`
leading bytes. -/
def trim_audio_beginning (pcm_data : List Nat) (trim_ms sample_rate : Nat)
    (num_channels sample_width : Nat) : List Nat :=
  let trim_samples := sample_rate * trim_ms / 1000
  let trim_bytes := trim_samples * num_channels * sample_width
  let trim_bytes2 := min trim_bytes pcm_data.length
  pcm_data.drop trim_bytes2

/-- Does the pattern (first argument) begin the list (second argument)?
Models Python `str.startswith`. -/
def startsWithList : List Char → List Char → Bool
  | [], _ => true
  | _ :: _, [] => false
  | a :: as, b :: bs => a == b && startsWithList as bs

/-- Characters stripped by Python `str.strip()` with no argument. -/
def pySpaceChar (c : Char) : Bool :=
  c == ' ' || c == '\t' || c == '\n' || c == '\r' ||
  c == Char.ofNat 11 || c == Char.ofNat 12

/-- Python `str.strip()`. -/
def pyStrip (s : List Char) : List Char :=
  ((s.dropWhile pySpaceChar).reverse.dropWhile pySpaceChar).reverse

/-- Python `str.split(sep)` for a single-character separator. -/
def charSplit (sep : Char) : List Char → List (List Char)
  | [] => [[]]
  | c :: rest =>
    let r := charSplit sep rest
    if c == sep then [] :: r
    else
      match r with
      | [] => [[c]]
      | h :: t => (c :: h) :: t

/-- Fuel-indexed worker for Python `str.split(sep)` with a multi-character
separator; the fuel is the length of the remaining input, which bounds the
number of steps because each step consumes at least one character. -/
def splitSeqGo (sep : List Char) : Nat → List Char → List (List Char)
  | _, [] => [[]]
  | 0, s => [s]
  | fuel + 1, c :: rest =>
    if startsWithList sep (c :: rest) then
      [] :: splitSeqGo sep fuel (List.drop sep.length (c :: rest))
    else
      match splitSeqGo sep fuel rest with
      | [] => [[c]]
      | h :: t => (c :: h) :: t

/-- Python `str.split(sep)` for a non-empty multi-character separator. -/
def splitSeq (sep s : List Char) : List (List Char) :=
  splitSeqGo sep s.length s

/-- All-decimal-digit parse, the core of Python `int()`. -/
def digitsToNat? (s : List Char) : Option Nat :=
  if !s.isEmpty && s.all Char.isDigit then
    some (s.foldl (fun acc c => 10 * acc + (c.toNat - 48)) 0)
  else
    none

/-- Python `int(str)`: optional surrounding whitespace, optional sign,
then a non-empty run of decimal digits; `none` models a `ValueError`. -/
def pyInt? (s : List Char) : Option Int :=
  match pyStrip s with
  | '-' :: rest => (digitsToNat? rest).map (fun n => -(n : Int))
  | '+' :: rest => (digitsToNat? rest).map (fun n => (n : Int))
  | t => (digitsToNat? t).map (fun n => (n : Int))

/-- One HTTP-level attempt outcome of the Gemini endpoint, as seen by
`generate_audio_pcm`:
* `http429 h` — status 429, with the already-parsed numeric
  `Retry-After` header value when present;
* `httpError` — a non-2xx status, so `raise_for_status` raises
  `requests.exceptions.HTTPError`;
* `reqError` — `requests.exceptions.RequestException` (network failure);
* `ok data mime` — a 2xx JSON response; `data` is the (decoded)
  `inlineData.data` payload, `mime` the `inlineData.mimeType` string,
  either possibly absent. -/
inductive GeminiResp where
  | http429 (retryAfter : Option Nat)
  | httpError
  | reqError
  | ok (data : Option (List Nat)) (mime : Option (List Char))
deriving DecidableEq

/-- Result of `generate_audio_pcm`: a `(pcm, rate)` success, the
`(None, None)` failure return, or an exception that none of the
`except` clauses catch and which therefore propagates out. -/
inductive PcmResult where
  | success (pcm : List Nat) (rate : Int)
  | failure
  | uncaught (e : String)
deriving DecidableEq

/-- Source lines 180-193: read `inlineData.data` / `inlineData.mimeType`
from the response body.  When both are truthy and the MIME type starts
with `audio/`, the code evaluates `int(mime_type.split('rate=')[1])`:
a MIME type without a `rate=` occurrence makes the `[1]` index raise
`IndexError`, and a non-numeric rate makes `int()` raise `ValueError`;
neither is caught by the surrounding `except` clauses.  Otherwise the
function prints an error and returns `(None, None)`. -/
def extractAudio (data : Option (List Nat)) (mime : Option (List Char)) : PcmResult :=
  match data, mime with
  | some d, some m =>
    if !d.isEmpty && !m.isEmpty && startsWithList "audio/".data m then
      match splitSeq "rate=".data m with
      | _ :: second :: _ =>
        match pyInt? second with
        | some n => PcmResult.success d n
        | none => PcmResult.uncaught "ValueError"
      | _ => PcmResult.uncaught "IndexError"
    else PcmResult.failure
  | _, _ => PcmResult.failure

/-- The `for i in range(retries)` loop of `generate_audio_pcm`
(source lines 156-224), processing the remaining attempt indices.
`resp i` is the HTTP outcome of the POST of attempt `i`.  The second
component records each `time.sleep` duration, in order:
* 429 with a `Retry-After` hint: sleep exactly the hint if another
  attempt remains, else return `(None, None)` without sleeping;
* 429 without a hint: same, with delay `max 2 (B * 2^i)`;
* `HTTPError` / `RequestException`: sleep `B * 2^i` if another attempt
  remains, else return `(None, None)`;
* 2xx: return the parse outcome immediately (in particular, a body with
  no audio data returns `(None, None)` at once, with no further retry). -/
def geminiGo (resp : Nat → GeminiResp) (retries backoff_factor : Nat) :
    List Nat → PcmResult × List Nat
  | [] => (PcmResult.failure, [])
  | i :: rest =>
    match resp i with
    | GeminiResp.http429 hint =>
      let delay := match hint with
        | some d => d
        | none => max 2 (backoff_factor * 2 ^ i)
      if i < retries - 1 then
        let r := geminiGo resp retries backoff_factor rest
        (r.1, delay :: r.2)
      else (PcmResult.failure, [])
    | GeminiResp.httpError =>
      if i < retries - 1 then
        let r := geminiGo resp retries backoff_factor rest
        (r.1, backoff_factor * 2 ^ i :: r.2)
      else (PcmResult.failure, [])
    | GeminiResp.reqError =>
      if i < retries - 1 then
        let r := geminiGo resp retries backoff_factor rest
        (r.1, backoff_factor * 2 ^ i :: r.2)
      else (PcmResult.failure, [])
    | GeminiResp.ok data mime => (extractAudio data mime, [])

/-- `generate_audio_pcm` (source lines 115-224): run the retry loop
over attempt indices `0 .. retries-1`. -/
def generate_audio_pcm (resp : Nat → GeminiResp) (retries backoff_factor : Nat) :
    PcmResult × List Nat :=
  geminiGo resp retries backoff_factor (List.range retries)

/-- Outcome of one `client.synthesize_speech` call of the Google Cloud
TTS client: the raw LINEAR16 bytes at 24000 Hz, or any exception. -/
inductive CloudResp where
  | ok (audio : List Nat)
  | exn
deriving DecidableEq

/-- `generate_audio_google_cloud_tts` (source lines 227-286): one
provider call, no internal retry; on success trim the first 200ms at
24000 Hz from the returned audio and report rate 24000; any exception
is caught and returns `(None, None)` (`none` here). -/
def generate_audio_google_cloud_tts (resp : CloudResp) : Option (List Nat × Int) :=
  match resp with
  | CloudResp.ok audio => some (trim_audio_beginning audio 200 24000 1 2, (24000 : Int))
  | CloudResp.exn => none

/-- A network interaction of the orchestrator: one invocation of the
primary (Gemini) adapter or of the secondary (Cloud TTS) adapter for
the given text. -/
inductive NetEvent where
  | gem (text : List Char)
  | cloud (text : List Char)
deriving DecidableEq

/-- Result of the per-part loop of `generate_and_save_audio`:
`done combined rate` on completion, `failed` for a `return False`,
`crashed` for an exception propagating out of the loop. -/
inductive LoopOut where
  | done (combined : List Nat) (rate : Int)
  | failed
  | crashed (e : String)
deriving DecidableEq

/-- Overall outcome of `generate_and_save_audio`: `True`, `False`, or
an uncaught exception propagating out of the call. -/
inductive OrchResult where
  | success
  | failure
  | crash (e : String)
deriving DecidableEq

/-- Source line 340: `[part.strip() for part in text.split('/') if part.strip()]`. -/
def partsOf (text : List Char) : List (List Char) :=
  ((charSplit '/' text).map pyStrip).filter (fun s => !s.isEmpty)

/-- The `for idx, part in enumerate(parts)` loop of
`generate_and_save_audio` (source lines 351-382), carrying the combined
PCM buffer, the established sample rate (`None` before the first part),
and the network-event trace.  For each part: try Gemini; on `(None, None)`
fall back to one Cloud TTS call; if both fail, `return False`; check the
sample rate against the established one and `return False` on mismatch;
append the part's PCM and, when the part is not the last, one silence
buffer of the configured pause duration. -/
def partLoop (gem : List Char → Nat → GeminiResp) (cloud : List Char → CloudResp)
    (retries backoff_factor pause_duration_ms : Nat) :
    List (List Char) → List Nat → Option Int → List NetEvent → LoopOut × List NetEvent
  | [], combined, some r, net => (LoopOut.done combined r, net)
  | [], _, none, net => (LoopOut.crashed "TypeError", net)
  | p :: rest, combined, sr, net =>
    match (generate_audio_pcm (gem p) retries backoff_factor).1 with
    | PcmResult.uncaught e => (LoopOut.crashed e, net ++ [NetEvent.gem p])
    | PcmResult.success pcm rate =>
      match sr with
      | some r0 =>
        if r0 ≠ rate then (LoopOut.failed, net ++ [NetEvent.gem p])
        else
          partLoop gem cloud retries backoff_factor pause_duration_ms rest
            (combined ++ pcm ++
              (if rest.isEmpty then [] else generate_silence_pcm pause_duration_ms r0 1 2))
            (some r0) (net ++ [NetEvent.gem p])
      | none =>
        partLoop gem cloud retries backoff_factor pause_duration_ms rest
          (combined ++ pcm ++
            (if rest.isEmpty then [] else generate_silence_pcm pause_duration_ms rate 1 2))
          (some rate) (net ++ [NetEvent.gem p])
    | PcmResult.failure =>
      match generate_audio_google_cloud_tts (cloud p) with
      | none => (LoopOut.failed, net ++ [NetEvent.gem p, NetEvent.cloud p])
      | some (pcm, rate) =>
        match sr with
        | some r0 =>
          if r0 ≠ rate then (LoopOut.failed, net ++ [NetEvent.gem p, NetEvent.cloud p])
          else
            partLoop gem cloud retries backoff_factor pause_duration_ms rest
              (combined ++ pcm ++
                (if rest.isEmpty then [] else generate_silence_pcm pause_duration_ms r0 1 2))
              (some r0) (net ++ [NetEvent.gem p, NetEvent.cloud p])
        | none =>
          partLoop gem cloud retries backoff_factor pause_duration_ms rest
            (combined ++ pcm ++
              (if rest.isEmpty then [] else generate_silence_pcm pause_duration_ms rate 1 2))
            (some rate) (net ++ [NetEvent.gem p, NetEvent.cloud p])

/-- `generate_and_save_audio` (source lines 313-423).  Returns the
boolean-or-crash outcome, the filesystem after the call, and the list
of network interactions, in order.
* If the destination exists, return `True` at once: no network, no
  filesystem change.
* If the text contains `'/'`: split/strip/drop-empty; fail on zero
  parts; run the per-part loop; on completion prepend 100ms of silence,
  encode via `pcm_to_wav`, and write the destination file.
* Otherwise synthesize the whole text (Gemini, then Cloud TTS on
  failure), prepend 100ms of silence, encode, and write. -/
def generate_and_save_audio (gem : List Char → Nat → GeminiResp)
    (cloud : List Char → CloudResp) (text : List Char) (output_filename : String)
    (pause_duration_ms retries backoff_factor : Nat) (fs : FS) :
    OrchResult × FS × List NetEvent :=
  if fileExists fs output_filename then (OrchResult.success, fs, [])
  else if text.contains '/' then
    let parts := partsOf text
    if parts.isEmpty then (OrchResult.failure, fs, [])
    else
      match partLoop gem cloud retries backoff_factor pause_duration_ms parts [] none [] with
      | (LoopOut.failed, net) => (OrchResult.failure, fs, net)
      | (LoopOut.crashed e, net) => (OrchResult.crash e, fs, net)
      | (LoopOut.done combined rate, net) =>
        let combined2 := generate_silence_pcm 100 rate 1 2 ++ combined
        let w := pcm_to_wav fs combined2 rate 1 2
        (OrchResult.success, writeFile w.1 output_filename w.2, net)
  else
    match (generate_audio_pcm (gem text) retries backoff_factor).1 with
    | PcmResult.uncaught e => (OrchResult.crash e, fs, [NetEvent.gem text])
    | PcmResult.success pcm rate =>
      let pcm2 := generate_silence_pcm 100 rate 1 2 ++ pcm
      let w := pcm_to_wav fs pcm2 rate 1 2
      (OrchResult.success, writeFile w.1 output_filename w.2, [NetEvent.gem text])
    | PcmResult.failure =>
      match generate_audio_google_cloud_tts (cloud text) with
      | none => (OrchResult.failure, fs, [NetEvent.gem text, NetEvent.cloud text])
      | some (pcm, rate) =>
        let pcm2 := generate_silence_pcm 100 rate 1 2 ++ pcm
        let w := pcm_to_wav fs pcm2 rate 1 2
        (OrchResult.success, writeFile w.1 output_filename w.2,
          [NetEvent.gem text, NetEvent.cloud text])

/-- Concatenation with a single separator between consecutive buffers
and none after the last: the shape the claim about composition
describes. -/
def joinWithSep (sep : List Nat) : List (List Nat) → List Nat
  | [] => []
  | [b] => b
  | b :: rest => b ++ sep ++ joinWithSep sep rest

theorem geminiGo_cons429_cont (resp : Nat → GeminiResp) (retries B i : Nat)
    (rest : List Nat) (hint : Option Nat)
    (hresp : resp i = GeminiResp.http429 hint) (hlt : i < retries - 1) :
    geminiGo resp retries B (i :: rest) =
      ((geminiGo resp retries B rest).1,
        hint.getD (max 2 (B * 2 ^ i)) :: (geminiGo resp retries B rest).2) := by
  cases hint <;> simp [geminiGo, hresp, hlt]

theorem geminiGo_cons429_last (resp : Nat → GeminiResp) (retries B i : Nat)
    (rest : List Nat) (hint : Option Nat)
    (hresp : resp i = GeminiResp.http429 hint) (hlast : ¬ i < retries - 1) :
    geminiGo resp retries B (i :: rest) = (PcmResult.failure, []) := by
  cases hint <;> simp [geminiGo, hresp, hlast]

theorem geminiGo_consTrans_cont (resp : Nat → GeminiResp) (retries B i : Nat)
    (rest : List Nat)
    (hresp : resp i = GeminiResp.httpError ∨ resp i = GeminiResp.reqError)
    (hlt : i < retries - 1) :
    geminiGo resp retries B (i :: rest) =
      ((geminiGo resp retries B rest).1,
        B * 2 ^ i :: (geminiGo resp retries B rest).2) := by
  rcases hresp with h | h <;> simp [geminiGo, h, hlt]

theorem geminiGo_consTrans_last (resp : Nat → GeminiResp) (retries B i : Nat)
    (rest : List Nat)
    (hresp : resp i = GeminiResp.httpError ∨ resp i = GeminiResp.reqError)
    (hlast : ¬ i < retries - 1) :
    geminiGo resp retries B (i :: rest) = (PcmResult.failure, []) := by
  rcases hresp with h | h <;> simp [geminiGo, h, hlast]

theorem geminiGo_all429 (resp : Nat → GeminiResp) (retries B : Nat)
    (hall : ∀ j < retries, resp j = GeminiResp.http429 none) :
    ∀ n i, i + n = retries →
      geminiGo resp retries B (List.range' i n) =
        (PcmResult.failure, (List.range' i (n - 1)).map (fun j => max 2 (B * 2 ^ j))) := by
  intro n
  induction n with
  | zero => intro i hi; simp [geminiGo]
  | succ n ih =>
    intro i hi
    have hresp := hall i (by omega)
    cases n with
    | zero =>
      have hlast : ¬ i < retries - 1 := by omega
      rw [show List.range' i 1 = i :: List.range' (i + 1) 0 from rfl,
        geminiGo_cons429_last resp retries B i (List.range' (i + 1) 0) none hresp hlast]
      simp
    | succ m =>
      have hlt : i < retries - 1 := by omega
      have hrec := ih (i + 1) (by omega)
      rw [show List.range' i (m + 1 + 1) = i :: List.range' (i + 1) (m + 1) from rfl,
        geminiGo_cons429_cont resp retries B i (List.range' (i + 1) (m + 1)) none hresp hlt,
        hrec,
        show List.range' i (m + 1 + 1 - 1) = i :: List.range' (i + 1) m from rfl]
      simp

theorem geminiGo_allTransient (resp : Nat → GeminiResp) (retries B : Nat)
    (hall : ∀ j < retries, resp j = GeminiResp.httpError ∨ resp j = GeminiResp.reqError) :
    ∀ n i, i + n = retries →
      geminiGo resp retries B (List.range' i n) =
        (PcmResult.failure, (List.range' i (n - 1)).map (fun j => B * 2 ^ j)) := by
  intro n
  induction n with
  | zero => intro i hi; simp [geminiGo]
  | succ n ih =>
    intro i hi
    have hresp := hall i (by omega)
    cases n with
    | zero =>
      have hlast : ¬ i < retries - 1 := by omega
      rw [show List.range' i 1 = i :: List.range' (i + 1) 0 from rfl,
        geminiGo_consTrans_last resp retries B i (List.range' (i + 1) 0) hresp hlast]
      simp
    | succ m =>
      have hlt : i < retries - 1 := by omega
      have hrec := ih (i + 1) (by omega)
      rw [show List.range' i (m + 1 + 1) = i :: List.range' (i + 1) (m + 1) from rfl,
        geminiGo_consTrans_cont resp retries B i (List.range' (i + 1) (m + 1)) hresp hlt,
        hrec,
        show List.range' i (m + 1 + 1 - 1) = i :: List.range' (i + 1) m from rfl]
      simp

/-- C1: on a RateLimited (HTTP 429) outcome at attempt `i`, the retry
controller sleeps exactly the provider's `Retry-After` hint when one is
supplied, and `max 2 (B * 2^i)` seconds when none is, before the next
attempt; when `i` is the last attempt it abandons the provider and
returns failure without sleeping further.  When every attempt is
rate-limited without a hint, the whole run fails after sleeping
`max 2 (B * 2^i)` for each of the first `N - 1` attempts. -/
theorem retry_rate_limited_backoff (resp : Nat → GeminiResp) (retries B i : Nat)
    (rest : List Nat) (hint : Option Nat)
    (hresp : resp i = GeminiResp.http429 hint) :
    (i < retries - 1 →
      geminiGo resp retries B (i :: rest) =
        ((geminiGo resp retries B rest).1,
          hint.getD (max 2 (B * 2 ^ i)) :: (geminiGo resp retries B rest).2)) ∧
    (¬ i < retries - 1 → geminiGo resp retries B (i :: rest) = (PcmResult.failure, [])) ∧
    ((∀ j < retries, resp j = GeminiResp.http429 none) →
      generate_audio_pcm resp retries B =
        (PcmResult.failure, (List.range (retries - 1)).map (fun j => max 2 (B * 2 ^ j)))) := by
  refine ⟨?_, ?_, ?_⟩
  · intro h
    cases hint <;> simp [geminiGo, hresp, h, Option.getD]
  · intro h
    cases hint <;> simp [geminiGo, hresp, h]
  · intro hall
    have h := geminiGo_all429 resp retries B hall retries 0 (by omega)
    simpa [generate_audio_pcm, List.range_eq_range'] using h

theorem retry_rate_limited_backoff_witness :
    geminiGo (fun _ => GeminiResp.http429 (some 5)) 3 1 (0 :: [1, 2]) =
      ((geminiGo (fun _ => GeminiResp.http429 (some 5)) 3 1 [1, 2]).1,
        (some 5).getD (max 2 (1 * 2 ^ 0)) ::
          (geminiGo (fun _ => GeminiResp.http429 (some 5)) 3 1 [1, 2]).2) ∧
    generate_audio_pcm (fun _ => GeminiResp.http429 none) 3 1 =
      (PcmResult.failure, (List.range (3 - 1)).map (fun j => max 2 (1 * 2 ^ j))) := by
  constructor
  · exact (retry_rate_limited_backoff (fun _ => GeminiResp.http429 (some 5)) 3 1 0 [1, 2]
      (some 5) rfl).1 (by decide)
  · exact (retry_rate_limited_backoff (fun _ => GeminiResp.http429 none) 3 1 0 []
      none rfl).2.2 (fun j _ => rfl)

/-- C7: on a TransientError outcome (HTTPError or RequestException)
at attempt `i`, the retry controller sleeps exactly `B * 2^i` seconds
— no minimum floor — before the next attempt when one remains, and
returns failure without further sleeping when `i` is the last attempt;
when every attempt is transient the whole run fails after sleeping
`B * 2^i` for each of the first `N - 1` attempts, and the orchestrator
then falls back to one secondary-provider (Cloud TTS) call. -/
theorem retry_transient_backoff (resp : Nat → GeminiResp) (retries B i : Nat)
    (rest : List Nat) (gem : List Char → Nat → GeminiResp)
    (cloud : List Char → CloudResp) (text : List Char) (out : String)
    (pause : Nat) (fs : FS)
    (hresp : resp i = GeminiResp.httpError ∨ resp i = GeminiResp.reqError) :
    (i < retries - 1 →
      geminiGo resp retries B (i :: rest) =
        ((geminiGo resp retries B rest).1,
          B * 2 ^ i :: (geminiGo resp retries B rest).2)) ∧
    (¬ i < retries - 1 → geminiGo resp retries B (i :: rest) = (PcmResult.failure, [])) ∧
    ((∀ j < retries, resp j = GeminiResp.httpError ∨ resp j = GeminiResp.reqError) →
      generate_audio_pcm resp retries B =
        (PcmResult.failure, (List.range (retries - 1)).map (fun j => B * 2 ^ j))) ∧
    (text.contains '/' = false → fileExists fs out = false →
      (generate_audio_pcm (gem text) retries B).1 = PcmResult.failure →
      (generate_and_save_audio gem cloud text out pause retries B fs).2.2 =
        [NetEvent.gem text, NetEvent.cloud text]) := by
  refine ⟨?_, ?_, ?_, ?_⟩
  · intro h
    exact geminiGo_consTrans_cont resp retries B i rest hresp h
  · intro h
    exact geminiGo_consTrans_last resp retries B i rest hresp h
  · intro hall
    have h := geminiGo_allTransient resp retries B hall retries 0 (by omega)
    simpa [generate_audio_pcm, List.range_eq_range'] using h
  · intro hs hf hfail
    have hs' : ¬ ('/' ∈ text) := by simpa using hs
    cases hc : generate_audio_google_cloud_tts (cloud text) with
    | none => simp [generate_and_save_audio, hf, hs', hfail, hc]
    | some pr =>
      obtain ⟨pcm, rate⟩ := pr
      simp [generate_and_save_audio, hf, hs', hfail, hc]

theorem retry_transient_backoff_witness :
    geminiGo (fun _ => GeminiResp.httpError) 3 2 (0 :: [1, 2]) =
      ((geminiGo (fun _ => GeminiResp.httpError) 3 2 [1, 2]).1,
        2 * 2 ^ 0 :: (geminiGo (fun _ => GeminiResp.httpError) 3 2 [1, 2]).2) ∧
    generate_audio_pcm (fun _ => GeminiResp.reqError) 3 2 =
      (PcmResult.failure, (List.range (3 - 1)).map (fun j => 2 * 2 ^ j)) ∧
    (generate_and_save_audio (fun _ _ => GeminiResp.httpError) (fun _ => CloudResp.exn)
        "hola".data "out.wav" 500 3 2 []).2.2 =
      [NetEvent.gem "hola".data, NetEvent.cloud "hola".data] := by
  refine ⟨?_, ?_, ?_⟩
  · exact (retry_transient_backoff (fun _ => GeminiResp.httpError) 3 2 0 [1, 2]
      (fun _ _ => GeminiResp.httpError) (fun _ => CloudResp.exn) "hola".data "out.wav"
      500 [] (Or.inl rfl)).1 (by decide)
  · exact (retry_transient_backoff (fun _ => GeminiResp.reqError) 3 2 0 []
      (fun _ _ => GeminiResp.httpError) (fun _ => CloudResp.exn) "hola".data "out.wav"
      500 [] (Or.inr rfl)).2.2.1 (fun j _ => Or.inr rfl)
  · exact (retry_transient_backoff (fun _ => GeminiResp.httpError) 3 2 0 []
      (fun _ _ => GeminiResp.httpError) (fun _ => CloudResp.exn) "hola".data "out.wav"
      500 [] (Or.inl rfl)).2.2.2 (by decide) (by decide) (by decide)

/-- C5 (code bug): a 2xx response whose MIME type starts with `audio/`
but carries no `rate=` parameter makes `generate_audio_pcm` raise an
uncaught `IndexError` at `mime_type.split('rate=')[1]` instead of
returning the `(None, None)` failure the claim (and the function's own
docstring) describe; a non-numeric rate likewise raises an uncaught
`ValueError`.  Only a missing/empty payload or a MIME type that fails
the `audio/` check takes the clean `(None, None)` return. -/
theorem gemini_missing_rate_crashes :
    extractAudio (some [1]) (some "audio/L16".data) = PcmResult.uncaught "IndexError" ∧
    (generate_audio_pcm (fun _ => GeminiResp.ok (some [1]) (some "audio/L16".data)) 5 1).1 =
      PcmResult.uncaught "IndexError" ∧
    extractAudio (some [1]) (some "audio/L16;rate=abc".data) =
      PcmResult.uncaught "ValueError" ∧
    extractAudio none (some "audio/L16;rate=24000".data) = PcmResult.failure ∧
    extractAudio (some [1]) (some "text/plain".data) = PcmResult.failure ∧
    extractAudio (some [1]) (some "audio/L16;rate=24000".data) =
      PcmResult.success [1] 24000 := by
  refine ⟨?_, ?_, ?_, ?_, ?_, ?_⟩ <;> decide

/-- C8: a successful secondary-adapter call returns the provider's audio
with exactly the first 200ms at 24000 Hz removed — that is, with
`min(int(24000 * 200 / 1000) * 1 * 2, len)` leading bytes dropped — at
reported rate 24000; a provider exception yields a single failure with
no internal retry. -/
theorem cloud_tts_trim_spec (resp : CloudResp) :
    (∀ audio, resp = CloudResp.ok audio →
      generate_audio_google_cloud_tts resp =
        some (List.drop (min (24000 * 200 / 1000 * 1 * 2) audio.length) audio,
          (24000 : Int))) ∧
    (resp = CloudResp.exn → generate_audio_google_cloud_tts resp = none) := by
  constructor
  · intro audio h
    subst h
    simp [generate_audio_google_cloud_tts, trim_audio_beginning]
  · intro h
    subst h
    rfl

theorem cloud_tts_trim_spec_witness :
    generate_audio_google_cloud_tts (CloudResp.ok [1, 2, 3]) =
      some (List.drop (min (24000 * 200 / 1000 * 1 * 2) [1, 2, 3].length) [1, 2, 3],
        (24000 : Int)) ∧
    generate_audio_google_cloud_tts CloudResp.exn = none :=
  ⟨(cloud_tts_trim_spec (CloudResp.ok [1, 2, 3])).1 [1, 2, 3] rfl,
    (cloud_tts_trim_spec CloudResp.exn).2 rfl⟩

/-- C10: `trim_audio_beginning` is total and never over-trims: the
result is exactly the suffix of the input obtained by removing
`min(int(sample_rate * trim_ms / 1000) * num_channels * sample_width, len)`
leading bytes (so the removed part plus the result reassemble the
input), and a buffer no longer than the trim window yields the empty
buffer rather than an error. -/
theorem trim_audio_total_spec (pcm : List Nat) (trim_ms sample_rate nch width : Nat) :
    trim_audio_beginning pcm trim_ms sample_rate nch width =
      List.drop (min (sample_rate * trim_ms / 1000 * nch * width) pcm.length) pcm ∧
    List.take (min (sample_rate * trim_ms / 1000 * nch * width) pcm.length) pcm ++
      trim_audio_beginning pcm trim_ms sample_rate nch width = pcm ∧
    (pcm.length ≤ sample_rate * trim_ms / 1000 * nch * width →
      trim_audio_beginning pcm trim_ms sample_rate nch width = []) := by
  refine ⟨rfl, ?_, ?_⟩
  · exact List.take_append_drop _ pcm
  · intro h
    simp [trim_audio_beginning, Nat.min_eq_right h, List.drop_length]

theorem trim_audio_total_spec_witness :
    trim_audio_beginning [1, 2, 3] 200 24000 1 2 = [] :=
  (trim_audio_total_spec [1, 2, 3] 200 24000 1 2).2.2 (by norm_num)

theorem eraseFile_writeFile (fs : FS) (p : String) (v : List Nat) :
    eraseFile (writeFile fs p v) p = eraseFile fs p := by
  simp [eraseFile, writeFile, List.filter_filter]

theorem fileExists_writeFile (fs : FS) (p : String) (v : List Nat) :
    fileExists (writeFile fs p v) p = true := by
  simp [fileExists, writeFile]

theorem partLoop_cons_success_none (gem : List Char → Nat → GeminiResp)
    (cloud : List Char → CloudResp) (retries B pause : Nat) (p : List Char)
    (rest : List (List Char)) (combined : List Nat) (net : List NetEvent)
    (pcm : List Nat) (rate : Int)
    (hp : (generate_audio_pcm (gem p) retries B).1 = PcmResult.success pcm rate) :
    partLoop gem cloud retries B pause (p :: rest) combined none net =
      partLoop gem cloud retries B pause rest
        (combined ++ pcm ++
          (if rest.isEmpty then [] else generate_silence_pcm pause rate 1 2))
        (some rate) (net ++ [NetEvent.gem p]) := by
  simp [partLoop, hp]

theorem partLoop_cons_success_some (gem : List Char → Nat → GeminiResp)
    (cloud : List Char → CloudResp) (retries B pause : Nat) (p : List Char)
    (rest : List (List Char)) (combined : List Nat) (net : List NetEvent)
    (pcm : List Nat) (rate : Int)
    (hp : (generate_audio_pcm (gem p) retries B).1 = PcmResult.success pcm rate) :
    partLoop gem cloud retries B pause (p :: rest) combined (some rate) net =
      partLoop gem cloud retries B pause rest
        (combined ++ pcm ++
          (if rest.isEmpty then [] else generate_silence_pcm pause rate 1 2))
        (some rate) (net ++ [NetEvent.gem p]) := by
  simp [partLoop, hp]

theorem partLoop_success (gem : List Char → Nat → GeminiResp)
    (cloud : List Char → CloudResp) (retries B pause : Nat)
    (buf : List Char → List Nat) (r : Int) :
    ∀ (parts : List (List Char)) (combined : List Nat) (net : List NetEvent),
      parts ≠ [] →
      (∀ p ∈ parts,
        (generate_audio_pcm (gem p) retries B).1 = PcmResult.success (buf p) r) →
      (partLoop gem cloud retries B pause parts combined none net =
        (LoopOut.done
          (combined ++ joinWithSep (generate_silence_pcm pause r 1 2) (parts.map buf)) r,
          net ++ parts.map NetEvent.gem)) ∧
      (partLoop gem cloud retries B pause parts combined (some r) net =
        (LoopOut.done
          (combined ++ joinWithSep (generate_silence_pcm pause r 1 2) (parts.map buf)) r,
          net ++ parts.map NetEvent.gem)) := by
  intro parts
  induction parts with
  | nil => intro combined net hne hall; exact absurd rfl hne
  | cons p rest ih =>
    intro combined net _ hall
    have hp := hall p (List.mem_cons_self p rest)
    cases rest with
    | nil =>
      constructor
      · rw [partLoop_cons_success_none gem cloud retries B pause p [] combined net
          (buf p) r hp]
        simp [partLoop, joinWithSep]
      · rw [partLoop_cons_success_some gem cloud retries B pause p [] combined net
          (buf p) r hp]
        simp [partLoop, joinWithSep]
    | cons q rest' =>
      have hall' : ∀ x ∈ q :: rest',
          (generate_audio_pcm (gem x) retries B).1 = PcmResult.success (buf x) r :=
        fun x hx => hall x (List.mem_cons_of_mem p hx)
      have ihq := ih
        (combined ++ buf p ++ generate_silence_pcm pause r 1 2)
        (net ++ [NetEvent.gem p]) (by simp) hall'
      constructor
      · rw [partLoop_cons_success_none gem cloud retries B pause p (q :: rest') combined
          net (buf p) r hp]
        simp only [List.isEmpty_cons, if_neg Bool.false_ne_true, ihq.2, List.map_cons,
          joinWithSep]
        simp [joinWithSep, List.append_assoc]
      · rw [partLoop_cons_success_some gem cloud retries B pause p (q :: rest') combined
          net (buf p) r hp]
        simp only [List.isEmpty_cons, if_neg Bool.false_ne_true, ihq.2, List.map_cons,
          joinWithSep]
        simp [joinWithSep, List.append_assoc]

/-- C2: when the text contains the separator and every part synthesizes
successfully (via the primary adapter) at a common rate `r`, the
composed PCM buffer written to the destination is a fixed 100ms silence
buffer, followed by the part buffers in original order with exactly one
silence buffer of the configured pause duration between each pair of
consecutive parts and none after the final part (`joinWithSep` inserts
exactly `k - 1` separators for `k` parts). -/
theorem compose_multi_phrase (gem : List Char → Nat → GeminiResp)
    (cloud : List Char → CloudResp) (text : List Char) (out : String)
    (pause retries B : Nat) (fs : FS) (buf : List Char → List Nat) (r : Int)
    (hfile : fileExists fs out = false)
    (hsep : text.contains '/' = true)
    (hne : partsOf text ≠ [])
    (hs : ∀ p ∈ partsOf text,
      (generate_audio_pcm (gem p) retries B).1 = PcmResult.success (buf p) r) :
    generate_and_save_audio gem cloud text out pause retries B fs =
      (OrchResult.success,
        writeFile (eraseFile fs "temp_audio.wav") out
          (wavBytes 1 2 r
            (generate_silence_pcm 100 r 1 2 ++
              joinWithSep (generate_silence_pcm pause r 1 2) ((partsOf text).map buf))),
        (partsOf text).map NetEvent.gem) := by
  have hsep' : '/' ∈ text := by simpa using hsep
  have hnee : ¬ (partsOf text).isEmpty = true := by
    simpa [List.isEmpty_iff] using hne
  have hloop :=
    (partLoop_success gem cloud retries B pause buf r (partsOf text) [] [] hne hs).1
  simp only [generate_and_save_audio, hfile, Bool.false_eq_true, if_false, hsep', hsep,
    if_true, hnee, hloop, pcm_to_wav, eraseFile_writeFile, List.nil_append]

theorem compose_multi_phrase_witness :
    generate_and_save_audio
      (fun p _ => GeminiResp.ok (some (if p = "a".data then [10] else [20]))
        (some "audio/l16;rate=10".data))
      (fun _ => CloudResp.exn) "a/b".data "o.wav" 500 5 1 [] =
      (OrchResult.success,
        writeFile (eraseFile [] "temp_audio.wav") "o.wav"
          (wavBytes 1 2 10
            (generate_silence_pcm 100 10 1 2 ++
              joinWithSep (generate_silence_pcm 500 10 1 2)
                ((partsOf "a/b".data).map
                  (fun p => if p = "a".data then [10] else [20])))),
        (partsOf "a/b".data).map NetEvent.gem) :=
  compose_multi_phrase
    (fun p _ => GeminiResp.ok (some (if p = "a".data then [10] else [20]))
      (some "audio/l16;rate=10".data))
    (fun _ => CloudResp.exn) "a/b".data "o.wav" 500 5 1 []
    (fun p => if p = "a".data then [10] else [20]) 10
    (by decide) (by decide) (by decide) (by decide)

theorem orch_fs_cases (gem : List Char → Nat → GeminiResp) (cloud : List Char → CloudResp)
    (text : List Char) (out : String) (pause retries B : Nat) (fs : FS) :
    ((generate_and_save_audio gem cloud text out pause retries B fs).1 ≠ OrchResult.success →
      (generate_and_save_audio gem cloud text out pause retries B fs).2.1 = fs) ∧
    ((generate_and_save_audio gem cloud text out pause retries B fs).1 = OrchResult.success →
      fileExists (generate_and_save_audio gem cloud text out pause retries B fs).2.1 out
        = true) ∧
    ((generate_and_save_audio gem cloud text out pause retries B fs).1 = OrchResult.success →
      (generate_and_save_audio gem cloud text out pause retries B fs).2.1 = fs ∨
      ∃ pcm rate,
        (generate_and_save_audio gem cloud text out pause retries B fs).2.1 =
          writeFile (eraseFile fs "temp_audio.wav") out (wavBytes 1 2 rate pcm)) := by
  by_cases h1 : fileExists fs out = true
  · have ho : generate_and_save_audio gem cloud text out pause retries B fs =
        (OrchResult.success, fs, []) := by
      simp [generate_and_save_audio, h1]
    rw [ho]
    exact ⟨fun _ => rfl, fun _ => h1, fun _ => Or.inl rfl⟩
  · have h1' : fileExists fs out = false := by simpa using h1
    by_cases h2 : '/' ∈ text
    · by_cases h3 : partsOf text = []
      · have hempty : (partsOf text).isEmpty = true := by simp [h3]
        have ho : generate_and_save_audio gem cloud text out pause retries B fs =
            (OrchResult.failure, fs, []) := by
          simp [generate_and_save_audio, h1', h2, hempty]
        rw [ho]
        exact ⟨fun _ => rfl, fun h => OrchResult.noConfusion h,
          fun h => OrchResult.noConfusion h⟩
      · have hempty : ¬ (partsOf text).isEmpty = true := by
          simpa [List.isEmpty_iff] using h3
        rcases hl : partLoop gem cloud retries B pause (partsOf text) [] none [] with ⟨lo, net⟩
        cases lo with
        | done combined rate =>
          have ho : generate_and_save_audio gem cloud text out pause retries B fs =
              (OrchResult.success,
                writeFile (eraseFile fs "temp_audio.wav") out
                  (wavBytes 1 2 rate (generate_silence_pcm 100 rate 1 2 ++ combined)),
                net) := by
            simp [generate_and_save_audio, h1', h2, hempty, hl, pcm_to_wav,
              eraseFile_writeFile]
          rw [ho]
          exact ⟨fun h => absurd rfl h, fun _ => fileExists_writeFile _ _ _,
            fun _ => Or.inr ⟨generate_silence_pcm 100 rate 1 2 ++ combined, rate, rfl⟩⟩
        | failed =>
          have ho : generate_and_save_audio gem cloud text out pause retries B fs =
              (OrchResult.failure, fs, net) := by
            simp [generate_and_save_audio, h1', h2, hempty, hl]
          rw [ho]
          exact ⟨fun _ => rfl, fun h => OrchResult.noConfusion h,
            fun h => OrchResult.noConfusion h⟩
        | crashed e =>
          have ho : generate_and_save_audio gem cloud text out pause retries B fs =
              (OrchResult.crash e, fs, net) := by
            simp [generate_and_save_audio, h1', h2, hempty, hl]
          rw [ho]
          exact ⟨fun _ => rfl, fun h => OrchResult.noConfusion h,
            fun h => OrchResult.noConfusion h⟩
    · cases hg : (generate_audio_pcm (gem text) retries B).1 with
      | success pcm rate =>
        have ho : generate_and_save_audio gem cloud text out pause retries B fs =
            (OrchResult.success,
              writeFile (eraseFile fs "temp_audio.wav") out
                (wavBytes 1 2 rate (generate_silence_pcm 100 rate 1 2 ++ pcm)),
              [NetEvent.gem text]) := by
          simp [generate_and_save_audio, h1', h2, hg, pcm_to_wav, eraseFile_writeFile]
        rw [ho]
        exact ⟨fun h => absurd rfl h, fun _ => fileExists_writeFile _ _ _,
          fun _ => Or.inr ⟨generate_silence_pcm 100 rate 1 2 ++ pcm, rate, rfl⟩⟩
      | failure =>
        cases hc : generate_audio_google_cloud_tts (cloud text) with
        | none =>
          have ho : generate_and_save_audio gem cloud text out pause retries B fs =
              (OrchResult.failure, fs, [NetEvent.gem text, NetEvent.cloud text]) := by
            simp [generate_and_save_audio, h1', h2, hg, hc]
          rw [ho]
          exact ⟨fun _ => rfl, fun h => OrchResult.noConfusion h,
            fun h => OrchResult.noConfusion h⟩
        | some pr =>
          obtain ⟨pcm, rate⟩ := pr
          have ho : generate_and_save_audio gem cloud text out pause retries B fs =
              (OrchResult.success,
                writeFile (eraseFile fs "temp_audio.wav") out
                  (wavBytes 1 2 rate (generate_silence_pcm 100 rate 1 2 ++ pcm)),
                [NetEvent.gem text, NetEvent.cloud text]) := by
            simp [generate_and_save_audio, h1', h2, hg, hc, pcm_to_wav,
              eraseFile_writeFile]
          rw [ho]
          exact ⟨fun h => absurd rfl h, fun _ => fileExists_writeFile _ _ _,
            fun _ => Or.inr ⟨generate_silence_pcm 100 rate 1 2 ++ pcm, rate, rfl⟩⟩
      | uncaught e =>
        have ho : generate_and_save_audio gem cloud text out pause retries B fs =
            (OrchResult.crash e, fs, [NetEvent.gem text]) := by
          simp [generate_and_save_audio, h1', h2, hg]
        rw [ho]
        exact ⟨fun _ => rfl, fun h => OrchResult.noConfusion h,
          fun h => OrchResult.noConfusion h⟩

/-- C3: whenever `generate_and_save_audio` does not return success —
both providers failing for some part, a sample-rate mismatch, no valid
parts, or an exception — the filesystem is left exactly as it was: the
destination file is never created or partially written.  When it does
return success, the filesystem is either unchanged (idempotency
short-circuit) or carries the full encoded file at the destination:
no-file and full-file are the only end states. -/
theorem partLoop_cons_success_mismatch (gem : List Char → Nat → GeminiResp)
    (cloud : List Char → CloudResp) (retries B pause : Nat) (p : List Char)
    (rest : List (List Char)) (combined : List Nat) (net : List NetEvent)
    (pcm : List Nat) (r0 rate : Int)
    (hp : (generate_audio_pcm (gem p) retries B).1 = PcmResult.success pcm rate)
    (hne : r0 ≠ rate) :
    partLoop gem cloud retries B pause (p :: rest) combined (some r0) net =
      (LoopOut.failed, net ++ [NetEvent.gem p]) := by
  simp [partLoop, hp, hne]

theorem orch_failure_writes_nothing (gem : List Char → Nat → GeminiResp)
    (cloud : List Char → CloudResp) (text : List Char) (out : String)
    (pause retries B : Nat) (fs : FS) :
    ((generate_and_save_audio gem cloud text out pause retries B fs).1 ≠ OrchResult.success →
      (generate_and_save_audio gem cloud text out pause retries B fs).2.1 = fs) ∧
    ((generate_and_save_audio gem cloud text out pause retries B fs).1 = OrchResult.success →
      (generate_and_save_audio gem cloud text out pause retries B fs).2.1 = fs ∨
      ∃ pcm rate,
        (generate_and_save_audio gem cloud text out pause retries B fs).2.1 =
          writeFile (eraseFile fs "temp_audio.wav") out (wavBytes 1 2 rate pcm)) ∧
    (∀ p1 p2 restp pcm1 r1 pcm2 r2,
      text.contains '/' = true →
      partsOf text = p1 :: p2 :: restp →
      fileExists fs out = false →
      (generate_audio_pcm (gem p1) retries B).1 = PcmResult.success pcm1 r1 →
      (generate_audio_pcm (gem p2) retries B).1 = PcmResult.success pcm2 r2 →
      r1 ≠ r2 →
      generate_and_save_audio gem cloud text out pause retries B fs =
        (OrchResult.failure, fs, [NetEvent.gem p1, NetEvent.gem p2])) := by
  refine ⟨(orch_fs_cases gem cloud text out pause retries B fs).1,
    (orch_fs_cases gem cloud text out pause retries B fs).2.2, ?_⟩
  intro p1 p2 restp pcm1 r1 pcm2 r2 hsep hparts hfile hp1 hp2 hner
  have hsep' : '/' ∈ text := by simpa using hsep
  have hempty : ¬ (partsOf text).isEmpty = true := by simp [hparts]
  have hloop : partLoop gem cloud retries B pause (partsOf text) [] none [] =
      (LoopOut.failed, [NetEvent.gem p1, NetEvent.gem p2]) := by
    rw [hparts,
      partLoop_cons_success_none gem cloud retries B pause p1 (p2 :: restp) [] []
        pcm1 r1 hp1,
      partLoop_cons_success_mismatch gem cloud retries B pause p2 restp _ _
        pcm2 r1 r2 hp2 hner]
    simp
  simp [generate_and_save_audio, hfile, hsep', hsep, hempty, hloop]

theorem orch_failure_writes_nothing_witness :
    (generate_and_save_audio (fun _ _ => GeminiResp.httpError) (fun _ => CloudResp.exn)
      "a".data "o.wav" 500 3 1 []).2.1 = [] ∧
    generate_and_save_audio
      (fun p _ => GeminiResp.ok (some [10])
        (some (if p = "a".data then "audio/l16;rate=10".data
          else "audio/l16;rate=20".data)))
      (fun _ => CloudResp.exn) "a/b".data "o.wav" 500 5 1 [] =
      (OrchResult.failure, [], [NetEvent.gem "a".data, NetEvent.gem "b".data]) := by
  constructor
  · exact (orch_failure_writes_nothing (fun _ _ => GeminiResp.httpError)
      (fun _ => CloudResp.exn) "a".data "o.wav" 500 3 1 []).1 (by decide)
  · exact (orch_failure_writes_nothing
      (fun p _ => GeminiResp.ok (some [10])
        (some (if p = "a".data then "audio/l16;rate=10".data
          else "audio/l16;rate=20".data)))
      (fun _ => CloudResp.exn) "a/b".data "o.wav" 500 5 1 []).2.2
      "a".data "b".data [] [10] 10 [10] 20
      (by decide) (by decide) (by decide) (by decide) (by decide) (by decide)

/-- C4: when the destination file already exists the orchestrator
returns success with no network events and an unchanged filesystem;
consequently a second invocation with the same destination path after a
successful one performs no network I/O and leaves the filesystem — in
particular the output file — byte-identical. -/
theorem orch_idempotent (gem : List Char → Nat → GeminiResp)
    (cloud : List Char → CloudResp) (text : List Char) (out : String)
    (pause retries B : Nat) (fs : FS) :
    (fileExists fs out = true →
      generate_and_save_audio gem cloud text out pause retries B fs =
        (OrchResult.success, fs, [])) ∧
    (∀ fs1 net1,
      generate_and_save_audio gem cloud text out pause retries B fs =
        (OrchResult.success, fs1, net1) →
      generate_and_save_audio gem cloud text out pause retries B fs1 =
        (OrchResult.success, fs1, [])) := by
  constructor
  · intro h
    simp [generate_and_save_audio, h]
  · intro fs1 net1 h
    have h2 := (orch_fs_cases gem cloud text out pause retries B fs).2.1 (by rw [h])
    rw [h] at h2
    simp only at h2
    simp [generate_and_save_audio, h2]

theorem orch_idempotent_witness :
    generate_and_save_audio
      (fun _ _ => GeminiResp.ok (some [10]) (some "audio/l16;rate=10".data))
      (fun _ => CloudResp.exn) "x".data "o.wav" 500 5 1
      (writeFile [] "o.wav" (wavBytes 1 2 10 [0, 0, 10])) =
      (OrchResult.success, writeFile [] "o.wav" (wavBytes 1 2 10 [0, 0, 10]), []) :=
  (orch_idempotent
    (fun _ _ => GeminiResp.ok (some [10]) (some "audio/l16;rate=10".data))
    (fun _ => CloudResp.exn) "x".data "o.wav" 500 5 1 []).2
    (writeFile [] "o.wav" (wavBytes 1 2 10 [0, 0, 10]))
    [NetEvent.gem "x".data] (by decide)

/-- C6 counterexample: the whitespace-only text `" "` has zero parts
after split/trim/drop-empty, yet — because it contains no `'/'` — the
orchestrator does not fail: it synthesizes the text whole, returns
success, and creates the output file. -/
theorem empty_parts_counterexample :
    partsOf " ".data = [] ∧
    (generate_and_save_audio
      (fun _ _ => GeminiResp.ok (some [10]) (some "audio/l16;rate=10".data))
      (fun _ => CloudResp.exn) " ".data "o.wav" 500 5 1 []).1 = OrchResult.success ∧
    fileExists
      (generate_and_save_audio
        (fun _ _ => GeminiResp.ok (some [10]) (some "audio/l16;rate=10".data))
        (fun _ => CloudResp.exn) " ".data "o.wav" 500 5 1 []).2.1 "o.wav" = true := by
  refine ⟨?_, ?_, ?_⟩ <;> decide

/-- C6 (amended): for texts that do contain the `'/'` separator, zero
remaining parts after split/trim/drop-empty make the orchestrator
return failure with no network activity and no file created; texts
without a separator bypass this check and are synthesized whole. -/
theorem empty_parts_with_sep_fails (gem : List Char → Nat → GeminiResp)
    (cloud : List Char → CloudResp) (text : List Char) (out : String)
    (pause retries B : Nat) (fs : FS)
    (hsep : text.contains '/' = true)
    (hparts : partsOf text = [])
    (hfile : fileExists fs out = false) :
    generate_and_save_audio gem cloud text out pause retries B fs =
      (OrchResult.failure, fs, []) := by
  have hsep' : '/' ∈ text := by simpa using hsep
  have hempty : (partsOf text).isEmpty = true := by simp [hparts]
  simp [generate_and_save_audio, hfile, hsep', hsep, hempty]

theorem empty_parts_with_sep_fails_witness :
    generate_and_save_audio (fun _ _ => GeminiResp.httpError) (fun _ => CloudResp.exn)
      "/  /".data "o.wav" 500 5 1 [] = (OrchResult.failure, [], []) :=
  empty_parts_with_sep_fails (fun _ _ => GeminiResp.httpError) (fun _ => CloudResp.exn)
    "/  /".data "o.wav" 500 5 1 [] (by decide) (by decide) (by decide)

/-- C9 counterexample: encoding is not free of observable effects
beyond producing the container bytes: a pre-existing file at the fixed
temp path `temp_audio.wav` is destroyed by the encoder's write/remove
round-trip, so the filesystem after the call differs from the one
before it. -/
theorem pcm_to_wav_effect_counterexample :
    (pcm_to_wav (writeFile [] "temp_audio.wav" [7]) [1, 2] 8000 1 2).1 ≠
      writeFile [] "temp_audio.wav" [7] := by
  decide

/-- C9 (amended): the container bytes are a deterministic pure function
of (PCM bytes, sample rate, channel count, sample width): the RIFF tag
opens the header, the channel count is at byte offset 22, the sample
rate at offset 24, the bits-per-sample field (8 × sample width) at
offset 34, and the PCM payload follows unmodified at offset 44; the one
further observable effect of encoding is on the fixed temp path
`temp_audio.wav`, which is absent afterwards (a pre-existing file there
is destroyed). -/
theorem pcm_to_wav_spec (fs : FS) (pcm : List Nat) (rate : Int) (nch width : Nat) :
    (pcm_to_wav fs pcm rate nch width).1 = eraseFile fs "temp_audio.wav" ∧
    (pcm_to_wav fs pcm rate nch width).2 = wavBytes nch width rate pcm ∧
    List.drop 44 (pcm_to_wav fs pcm rate nch width).2 = pcm ∧
    List.take 4 (pcm_to_wav fs pcm rate nch width).2 = [82, 73, 70, 70] ∧
    List.take 2 (List.drop 22 (pcm_to_wav fs pcm rate nch width).2) = u16le nch ∧
    List.take 4 (List.drop 24 (pcm_to_wav fs pcm rate nch width).2) = u32le rate.toNat ∧
    List.take 2 (List.drop 34 (pcm_to_wav fs pcm rate nch width).2) = u16le (width * 8) ∧
    (pcm_to_wav fs pcm rate nch width).2.length = 44 + pcm.length := by
  have hw : (pcm_to_wav fs pcm rate nch width).2 = wavBytes nch width rate pcm := rfl
  have e4 : wavBytes nch width rate pcm =
      [82, 73, 70, 70] ++
        (u32le (36 + pcm.length) ++ [87, 65, 86, 69] ++ [102, 109, 116, 32] ++
          u32le 16 ++ u16le 1 ++ u16le nch ++ u32le rate.toNat ++
          u32le (rate.toNat * nch * width) ++ u16le (nch * width) ++
          u16le (width * 8) ++ [100, 97, 116, 97] ++ u32le pcm.length ++ pcm) := by
    simp [wavBytes, List.append_assoc]
  have e22 : wavBytes nch width rate pcm =
      ([82, 73, 70, 70] ++ u32le (36 + pcm.length) ++ [87, 65, 86, 69] ++
        [102, 109, 116, 32] ++ u32le 16 ++ u16le 1) ++
        (u16le nch ++
          (u32le rate.toNat ++ u32le (rate.toNat * nch * width) ++ u16le (nch * width) ++
            u16le (width * 8) ++ [100, 97, 116, 97] ++ u32le pcm.length ++ pcm)) := by
    simp [wavBytes, List.append_assoc]
  have e24 : wavBytes nch width rate pcm =
      ([82, 73, 70, 70] ++ u32le (36 + pcm.length) ++ [87, 65, 86, 69] ++
        [102, 109, 116, 32] ++ u32le 16 ++ u16le 1 ++ u16le nch) ++
        (u32le rate.toNat ++
          (u32le (rate.toNat * nch * width) ++ u16le (nch * width) ++
            u16le (width * 8) ++ [100, 97, 116, 97] ++ u32le pcm.length ++ pcm)) := by
    simp [wavBytes, List.append_assoc]
  have e34 : wavBytes nch width rate pcm =
      ([82, 73, 70, 70] ++ u32le (36 + pcm.length) ++ [87, 65, 86, 69] ++
        [102, 109, 116, 32] ++ u32le 16 ++ u16le 1 ++ u16le nch ++ u32le rate.toNat ++
        u32le (rate.toNat * nch * width) ++ u16le (nch * width)) ++
        (u16le (width * 8) ++
          ([100, 97, 116, 97] ++ u32le pcm.length ++ pcm)) := by
    simp [wavBytes, List.append_assoc]
  have e44 : wavBytes nch width rate pcm =
      ([82, 73, 70, 70] ++ u32le (36 + pcm.length) ++ [87, 65, 86, 69] ++
        [102, 109, 116, 32] ++ u32le 16 ++ u16le 1 ++ u16le nch ++ u32le rate.toNat ++
        u32le (rate.toNat * nch * width) ++ u16le (nch * width) ++
        u16le (width * 8) ++ [100, 97, 116, 97] ++ u32le pcm.length) ++ pcm := by
    simp [wavBytes, List.append_assoc]
  refine ⟨?_, hw, ?_, ?_, ?_, ?_, ?_, ?_⟩
  · simp [pcm_to_wav, eraseFile_writeFile]
  · rw [hw, e44, List.drop_left' (by simp [u32le, u16le])]
  · rw [hw, e4, List.take_left' (by simp)]
  · rw [hw, e22, List.drop_left' (by simp [u32le, u16le]),
      List.take_left' (by simp [u16le])]
  · rw [hw, e24, List.drop_left' (by simp [u32le, u16le]),
      List.take_left' (by simp [u32le])]
  · rw [hw, e34, List.drop_left' (by simp [u32le, u16le]),
      List.take_left' (by simp [u16le])]
  · rw [hw, e44]
    simp [u32le, u16le]
    omega
